import Mathlib

/-!
Shallow embedding of the proposal-spreadsheet extraction pipeline found in
`teste.py` and `teste_automacao-2/processar_propostas.py`.

Text is modelled as `List Char` (Python `str`), pandas/JSON values as the
inductive `PyVal`.  The pure core of the two scripts — malformed-JSON
repair, defensive parsing, nested-entity extraction, row merging,
deduplication and column ordering — is translated function by function;
file I/O, menus and backups are outside the model.
-/

/-- Python values as produced by `json.loads` and as held in pandas cells.
`nan` is the pandas missing-cell marker; `fnan` is the float NaN that
`json.loads` yields for the literal `NaN` (both are "missing" for
`pd.notna`).  `float m e` models the exact decimal `m * 10 ^ e`; binary
float rounding is not modelled.  `finf` models `Infinity`/`-Infinity`. -/
inductive PyVal where
  | none
  | nan
  | str (v : String)
  | int (v : Int)
  | float (m : Int) (e : Int)
  | fnan
  | finf (neg : Bool)
  | bool (v : Bool)
  | list (xs : List PyVal)
  | dict (kvs : List (String × PyVal))

mutual

/-- Structural equality on `PyVal` (models `==` on the Python values that
appear in cells; cross-type numeric equality such as `1 == 1.0` is not
modelled, no claim exercises it). -/
def PyVal.beq : PyVal → PyVal → Bool
  | .none, .none => true
  | .nan, .nan => true
  | .str a, .str b => a == b
  | .int a, .int b => a == b
  | .float a b, .float c d => a == c && b == d
  | .fnan, .fnan => true
  | .finf a, .finf b => a == b
  | .bool a, .bool b => a == b
  | .list xs, .list ys => PyVal.beqList xs ys
  | .dict xs, .dict ys => PyVal.beqKvs xs ys
  | _, _ => false

def PyVal.beqList : List PyVal → List PyVal → Bool
  | [], [] => true
  | x :: xs, y :: ys => PyVal.beq x y && PyVal.beqList xs ys
  | _, _ => false

def PyVal.beqKvs : List (String × PyVal) → List (String × PyVal) → Bool
  | [], [] => true
  | (k, x) :: xs, (l, y) :: ys => k == l && PyVal.beq x y && PyVal.beqKvs xs ys
  | _, _ => false

end

/-- `pd.notna` on a cell value: `None`, pandas NaN and float NaN are the
missing values; everything else (including containers) is present. -/
def pdNotna : PyVal → Bool
  | .none => false
  | .nan => false
  | .fnan => false
  | _ => true

/-- Python truthiness (`if v:`) for the values that can appear here. -/
def pyTruthy : PyVal → Bool
  | .none => false
  | .nan => true
  | .str v => v ≠ ""
  | .int v => v ≠ 0
  | .float m _ => m ≠ 0
  | .fnan => true
  | .finf _ => true
  | .bool v => v
  | .list xs => !xs.isEmpty
  | .dict kvs => !kvs.isEmpty

/-- `v is None`. -/
def PyVal.isNone : PyVal → Bool
  | .none => true
  | _ => false

/-- `isinstance(v, dict)`, returning the entries. -/
def PyVal.asDict : PyVal → Option (List (String × PyVal))
  | .dict kvs => some kvs
  | _ => Option.none

/-- `isinstance(v, dict)` as a test. -/
def PyVal.isDict : PyVal → Bool
  | .dict _ => true
  | _ => false

/-- Python `d.get(k, default)` on an insertion-ordered dict. -/
def dictGetD (kvs : List (String × PyVal)) (k : String) (dflt : PyVal) : PyVal :=
  (List.lookup k kvs).getD dflt

/-- Python `d[k] = v`: replace the value in place if the key exists,
otherwise append the new binding. -/
def assocSet (kvs : List (String × PyVal)) (k : String) (v : PyVal) :
    List (String × PyVal) :=
  match kvs with
  | [] => [(k, v)]
  | (k', w) :: rest =>
      if k' = k then (k', v) :: rest else (k', w) :: assocSet rest k v

/-- Python `d.update(new)`. -/
def assocUpdate (kvs new : List (String × PyVal)) : List (String × PyVal) :=
  new.foldl (fun acc kv => assocSet acc kv.1 kv.2) kvs

/-! ### Payload Repairer (`limpar_json_invalido`)

`re.sub(r':\s*,', ':null,', s)` and friends.  The regex `:\s*,` matches a
colon, a maximal run of whitespace (backtracking cannot help: a shorter
run would leave a whitespace character where `,` is required), then the
delimiter; `re.sub` rewrites non-overlapping matches left to right and
resumes scanning after the replaced text. -/
/-- Python's `\s` character class on `str` (Unicode whitespace). -/
def isPySpace (c : Char) : Bool :=
  match c with
  | ' ' | '\t' | '\n' | '\r' | '\x0b' | '\x0c'
  | '\x1c' | '\x1d' | '\x1e' | '\x1f' | '\x85' | '\xa0'
  | '\u1680' | '\u2028' | '\u2029' | '\u202f' | '\u205f' | '\u3000' => true
  | _ => 0x2000 ≤ c.toNat && c.toNat ≤ 0x200a

/-- Fuel-indexed scanner for one `re.sub(r':\s*<d>', ':null<d>', s)` pass:
at a `:` whose following whitespace run is terminated by `d`, the whole
match becomes `:null<d>` and the scan resumes after it; otherwise the scan
advances one char.  With `fuel ≥ l.length` the fuel never runs out
(`subCDF_fuel`); `subCD` below fixes that choice. -/
def subCDF (d : Char) : Nat → List Char → List Char
  | _, [] => []
  | 0, l => l
  | fuel + 1, c :: rest =>
      if c = ':' then
        match rest.dropWhile isPySpace with
        | d' :: tail =>
            if d' = d then
              ':' :: 'n' :: 'u' :: 'l' :: 'l' :: d :: subCDF d fuel tail
            else ':' :: subCDF d fuel rest
        | [] => ':' :: subCDF d fuel rest
      else c :: subCDF d fuel rest

/-- One `re.sub(r':\s*<d>', ':null<d>', s)` pass. -/
def subCD (d : Char) (l : List Char) : List Char :=
  subCDF d l.length l

/-- `startsWsD d l` holds when `l` is a whitespace run followed by `d`,
i.e. a `:` placed just before `l` would match `:\s*<d>`. -/
def startsWsD (d : Char) (l : List Char) : Bool :=
  match l.dropWhile isPySpace with
  | c :: _ => c = d
  | [] => false

/-- `noMatch d l`: the text `l` contains no occurrence of `:\s*<d>`. -/
def noMatch (d : Char) : List Char → Bool
  | [] => true
  | c :: rest =>
      if c = ':' then !startsWsD d rest && noMatch d rest
      else noMatch d rest

/-- The three substitutions of `limpar_json_invalido`, in source order. -/
def subAll (s : List Char) : List Char :=
  subCD ']' (subCD '}' (subCD ',' s))

/-- `limpar_json_invalido` of `processar_propostas.py`: the three colon
substitutions followed by `s.replace('\x00', '')`. -/
def limpar_json_invalido (s : List Char) : List Char :=
  (subAll s).filter (fun c => c ≠ '\x00')

/-- `limpar_json_invalido` of `teste.py`: same substitutions, no NUL
stripping. -/
def limparTeste (s : List Char) : List Char :=
  subAll s

/-! ### Payload Parser (`json.loads` and `safe_load_json`)

A shallow model of CPython's strict `json.loads`: RFC-8259 grammar plus
the default `NaN`/`Infinity`/`-Infinity` constants; no trailing commas;
string keys only; duplicate object keys keep the first position with the
last value; control characters below U+0020 are rejected inside strings.
Numbers are kept as exact decimals (`PyVal.float m e` for `m * 10 ^ e`);
binary float rounding/overflow is not modelled.  Escaped lone surrogates
(which CPython keeps as unpaired code units) are not representable in
`Char` and make this model reject — no claim exercises them.  Parse
failure (`json.JSONDecodeError`) is `Option.none`. -/
/-- JSON-grammar whitespace (the only whitespace `json.loads` skips). -/
def jsonWs (c : Char) : Bool :=
  match c with
  | ' ' | '\t' | '\n' | '\r' => true
  | _ => false

def skipWs (l : List Char) : List Char := l.dropWhile jsonWs

def hexVal (c : Char) : Option Nat :=
  if '0' ≤ c ∧ c ≤ '9' then some (c.toNat - 48)
  else if 'a' ≤ c ∧ c ≤ 'f' then some (c.toNat - 87)
  else if 'A' ≤ c ∧ c ≤ 'F' then some (c.toNat - 55)
  else Option.none

def readHex4 (l : List Char) : Option (Nat × List Char) :=
  match l with
  | a :: b :: c :: d :: rest =>
      match hexVal a, hexVal b, hexVal c, hexVal d with
      | some x, some y, some z, some w =>
          some (((x * 16 + y) * 16 + z) * 16 + w, rest)
      | _, _, _, _ => Option.none
  | _ => Option.none

def digitsToNat (l : List Char) : Nat :=
  l.foldl (fun n c => n * 10 + (c.toNat - 48)) 0

/-- CPython's `NUMBER_RE`: `(-?(?:0|[1-9]\d*))(\.\d+)?([eE][-+]?\d+)?`,
matched at the current position; integers stay `int`, anything with a
fraction or exponent becomes a float (here: an exact decimal). -/
def parseNumber (l : List Char) : Option (PyVal × List Char) :=
  let (neg, l1) := match l with
    | '-' :: rest => (true, rest)
    | _ => (false, l)
  match l1 with
  | [] => Option.none
  | c :: rest =>
      if c = '0' ∨ ('1' ≤ c ∧ c ≤ '9') then
        let intDigits :=
          if c = '0' then [c] else c :: rest.takeWhile Char.isDigit
        let l2 := if c = '0' then rest else rest.dropWhile Char.isDigit
        let (fracDigits, l3) := match l2 with
          | '.' :: r =>
              let ds := r.takeWhile Char.isDigit
              if ds.isEmpty then ([], l2) else (ds, r.dropWhile Char.isDigit)
          | _ => ([], l2)
        let hasFrac := !fracDigits.isEmpty
        let expPart : Option (Int × List Char) := match l3 with
          | e :: r =>
              if e = 'e' ∨ e = 'E' then
                let (esign, r2) := match r with
                  | '+' :: r' => ((1 : Int), r')
                  | '-' :: r' => ((-1 : Int), r')
                  | _ => ((1 : Int), r)
                let ds := r2.takeWhile Char.isDigit
                if ds.isEmpty then Option.none
                else some (esign * Int.ofNat (digitsToNat ds),
                  r2.dropWhile Char.isDigit)
              else Option.none
          | [] => Option.none
        let sign : Int := if neg then -1 else 1
        match expPart with
        | some (e, l4) =>
            some (.float (sign * Int.ofNat (digitsToNat (intDigits ++ fracDigits)))
              (e - Int.ofNat fracDigits.length), l4)
        | Option.none =>
            if hasFrac then
              some (.float (sign * Int.ofNat (digitsToNat (intDigits ++ fracDigits)))
                (- Int.ofNat fracDigits.length), l3)
            else some (.int (sign * Int.ofNat (digitsToNat intDigits)), l2)
      else Option.none

/-- JSON string body scanner (`py_scanstring`, strict mode), called just
after the opening quote; accumulates characters in reverse. -/
def parseStrBody (fuel : Nat) (acc : List Char) (l : List Char) :
    Option (String × List Char) :=
  match fuel, l with
  | _, '"' :: rest => some (String.mk acc.reverse, rest)
  | 0, _ => Option.none
  | _ + 1, [] => Option.none
  | fuel + 1, c :: rest =>
      if c = '\\' then
        match rest with
        | [] => Option.none
        | e :: rest2 =>
            if e = '"' then parseStrBody fuel ('"' :: acc) rest2
            else if e = '\\' then parseStrBody fuel ('\\' :: acc) rest2
            else if e = '/' then parseStrBody fuel ('/' :: acc) rest2
            else if e = 'b' then parseStrBody fuel ('\x08' :: acc) rest2
            else if e = 'f' then parseStrBody fuel ('\x0c' :: acc) rest2
            else if e = 'n' then parseStrBody fuel ('\n' :: acc) rest2
            else if e = 'r' then parseStrBody fuel ('\r' :: acc) rest2
            else if e = 't' then parseStrBody fuel ('\t' :: acc) rest2
            else if e = 'u' then
              match readHex4 rest2 with
              | some (n, rest3) =>
                  if 0xd800 ≤ n ∧ n ≤ 0xdbff then
                    match rest3 with
                    | '\\' :: 'u' :: rest4 =>
                        match readHex4 rest4 with
                        | some (n2, rest5) =>
                            if 0xdc00 ≤ n2 ∧ n2 ≤ 0xdfff then
                              parseStrBody fuel
                                (Char.ofNat
                                  (0x10000 + (n - 0xd800) * 0x400 + (n2 - 0xdc00))
                                  :: acc) rest5
                            else Option.none
                        | Option.none => Option.none
                    | _ => Option.none
                  else if 0xdc00 ≤ n ∧ n ≤ 0xdfff then Option.none
                  else parseStrBody fuel (Char.ofNat n :: acc) rest3
              | Option.none => Option.none
            else Option.none
      else if c.toNat < 0x20 then Option.none
      else parseStrBody fuel (c :: acc) rest

mutual

/-- `scan_once`: parse one JSON value starting at the next non-blank
position. -/
def parseVal (fuel : Nat) (l : List Char) : Option (PyVal × List Char) :=
  match fuel with
  | 0 => Option.none
  | fuel + 1 =>
      match skipWs l with
      | [] => Option.none
      | c :: rest =>
          if c = '"' then
            match parseStrBody fuel [] rest with
            | some (s, r) => some (.str s, r)
            | Option.none => Option.none
          else if c = '\x7b' then parseObj fuel rest
          else if c = '[' then parseArr fuel rest
          else
            match c :: rest with
            | 'n' :: 'u' :: 'l' :: 'l' :: r => some (.none, r)
            | 't' :: 'r' :: 'u' :: 'e' :: r => some (.bool true, r)
            | 'f' :: 'a' :: 'l' :: 's' :: 'e' :: r => some (.bool false, r)
            | _ =>
                match parseNumber (c :: rest) with
                | some (v, r) => some (v, r)
                | Option.none =>
                    match c :: rest with
                    | 'N' :: 'a' :: 'N' :: r => some (.fnan, r)
                    | 'I' :: 'n' :: 'f' :: 'i' :: 'n' :: 'i' :: 't' :: 'y' :: r =>
                        some (.finf false, r)
                    | '-' :: 'I' :: 'n' :: 'f' :: 'i' :: 'n' :: 'i' :: 't' :: 'y' :: r =>
                        some (.finf true, r)
                    | _ => Option.none

/-- Object body, called just after `{`. -/
def parseObj (fuel : Nat) (l : List Char) : Option (PyVal × List Char) :=
  match fuel with
  | 0 => Option.none
  | fuel + 1 =>
      match skipWs l with
      | '\x7d' :: rest => some (.dict [], rest)
      | _ => parseMembers fuel [] l

/-- One or more `"key": value` members separated by commas, then `}`. -/
def parseMembers (fuel : Nat) (acc : List (String × PyVal)) (l : List Char) :
    Option (PyVal × List Char) :=
  match fuel with
  | 0 => Option.none
  | fuel + 1 =>
      match skipWs l with
      | '"' :: rest =>
          match parseStrBody fuel [] rest with
          | some (k, rest2) =>
              match skipWs rest2 with
              | ':' :: rest3 =>
                  match parseVal fuel rest3 with
                  | some (v, rest4) =>
                      match skipWs rest4 with
                      | ',' :: rest5 => parseMembers fuel (assocSet acc k v) rest5
                      | '\x7d' :: rest5 => some (.dict (assocSet acc k v), rest5)
                      | _ => Option.none
                  | Option.none => Option.none
              | _ => Option.none
          | Option.none => Option.none
      | _ => Option.none

/-- Array body, called just after `[`. -/
def parseArr (fuel : Nat) (l : List Char) : Option (PyVal × List Char) :=
  match fuel with
  | 0 => Option.none
  | fuel + 1 =>
      match skipWs l with
      | ']' :: rest => some (.list [], rest)
      | _ => parseItems fuel [] l

/-- One or more array items separated by commas, then `]`; a comma must
be followed by a value, so a trailing comma fails. -/
def parseItems (fuel : Nat) (acc : List PyVal) (l : List Char) :
    Option (PyVal × List Char) :=
  match fuel with
  | 0 => Option.none
  | fuel + 1 =>
      match parseVal fuel l with
      | some (v, rest) =>
          match skipWs rest with
          | ',' :: rest2 => parseItems fuel (v :: acc) rest2
          | ']' :: rest2 => some (.list (v :: acc).reverse, rest2)
          | _ => Option.none
      | Option.none => Option.none

end

/-- `json.loads`: one value, then only whitespace may remain.  The fuel
is generous for the input length; it only bounds nesting-driven
recursion, and all uses in this development are on concrete inputs. -/
def json_loads (l : List Char) : Option PyVal :=
  match parseVal (4 * l.length + 16) l with
  | some (v, rest) => if (skipWs rest).isEmpty then some v else Option.none
  | Option.none => Option.none

/-- `safe_load_json` of `processar_propostas.py`: raw parse, then repair
and retry, then `None`. -/
def safe_load_json (s : List Char) : Option PyVal :=
  match json_loads s with
  | some v => some v
  | Option.none => json_loads (limpar_json_invalido s)

/-! ### Shared cell/row helpers -/
/-- Python `str.strip()` (the whitespace set matches `str.isspace`). -/
def pyStrip (l : List Char) : List Char :=
  ((l.dropWhile isPySpace).reverse.dropWhile isPySpace).reverse

/-- `startswith('\x7b') or startswith('[')` on already-stripped text. -/
def startsJson (l : List Char) : Bool :=
  match l with
  | c :: _ => c = '\x7b' || c = '['
  | [] => false

/-- `isinstance(v, str) and (v.strip().startswith('\x7b') or
v.strip().startswith('['))`: the "looks like a JSON payload" test both
scripts apply to cell values. -/
def isJsonShaped (v : PyVal) : Bool :=
  match v with
  | .str s => startsJson (pyStrip s.data)
  | _ => false

mutual

/-- Python `repr` for the values reachable here; string quote-escaping
and float `repr` are approximated (no claim renders those). -/
def pyRepr : PyVal → String
  | .none => "None"
  | .nan => "nan"
  | .str v => "'" ++ v ++ "'"
  | .int v => toString v
  | .float m e => toString m ++ "e" ++ toString e
  | .fnan => "nan"
  | .finf b => if b then "-inf" else "inf"
  | .bool b => if b then "True" else "False"
  | .list xs => "[" ++ pyReprList xs ++ "]"
  | .dict kvs => "\x7b" ++ pyReprKvs kvs ++ "\x7d"

def pyReprList : List PyVal → String
  | [] => ""
  | [x] => pyRepr x
  | x :: xs => pyRepr x ++ ", " ++ pyReprList xs

def pyReprKvs : List (String × PyVal) → String
  | [] => ""
  | [(k, v)] => "'" ++ k ++ "': " ++ pyRepr v
  | (k, v) :: kvs => "'" ++ k ++ "': " ++ pyRepr v ++ ", " ++ pyReprKvs kvs

end

/-- Python `str(v)` / f-string rendering. -/
def pyStr : PyVal → String
  | .str v => v
  | v => pyRepr v

/-- A row is the insertion-ordered column-name → cell-value mapping that
`df.iterrows()` hands to the per-row logic (missing cells are `nan`). -/
def Row : Type := List (String × PyVal)

/-- A table: the column list and the rows. -/
structure Table where
  cols : List String
  rows : List Row

def rowKeys (r : Row) : List String := r.map Prod.fst

def addKeys (acc : List String) (ks : List String) : List String :=
  ks.foldl (fun a k => if a.contains k then a else a ++ [k]) acc

/-- `pd.DataFrame(rows).columns`: union of row keys in first-seen order. -/
def unionKeys (rows : List Row) : List String :=
  rows.foldl (fun a r => addKeys a (rowKeys r)) []

/-! ### teste.py: `extrair_cbo_cnae_de_json` and `excel_extrair_cbo_cnae` -/
/-- The `"<code> - <description>" if codigo else ''` display string both
code/description branches of teste.py compute. -/
def displayCodigoDescricao (sub : List (String × PyVal)) : PyVal :=
  let codigo := dictGetD sub "codigo" (.str "")
  let descricao := dictGetD sub "descricao" (.str "")
  .str (if pyTruthy codigo then pyStr codigo ++ " - " ++ pyStr descricao else "")

/-- `if 'cbo' in item and isinstance(item['cbo'], dict): resultado['CBO'] = ...`. -/
def stepCBO (item acc : List (String × PyVal)) : List (String × PyVal) :=
  match List.lookup "cbo" item with
  | some (.dict cbo) => assocSet acc "CBO" (displayCodigoDescricao cbo)
  | _ => acc

/-- Same for `cnae`/`CNAE`. -/
def stepCNAE (item acc : List (String × PyVal)) : List (String × PyVal) :=
  match List.lookup "cnae" item with
  | some (.dict cnae) => assocSet acc "CNAE" (displayCodigoDescricao cnae)
  | _ => acc

/-- `if 'nome' in item: resultado['Nome'] = item['nome']`. -/
def stepNome (item acc : List (String × PyVal)) : List (String × PyVal) :=
  match List.lookup "nome" item with
  | some v => assocSet acc "Nome" v
  | Option.none => acc

/-- `if 'cpf' in item: resultado['CPF'] = str(item['cpf'])`. -/
def stepCPF (item acc : List (String × PyVal)) : List (String × PyVal) :=
  match List.lookup "cpf" item with
  | some v => assocSet acc "CPF" (.str (pyStr v))
  | Option.none => acc

/-- `if 'nomeEmpregador' in item: resultado['Empregador'] = ...`. -/
def stepEmpregador (item acc : List (String × PyVal)) : List (String × PyVal) :=
  match List.lookup "nomeEmpregador" item with
  | some v => assocSet acc "Empregador" v
  | Option.none => acc

/-- The per-object body of `extrair_cbo_cnae_de_json` (identical for the
array-element and single-object branches of the source): the five
conditional field emissions in source order. -/
def extrairItemTeste (item : List (String × PyVal)) : List (String × PyVal) :=
  stepEmpregador item (stepCPF item (stepNome item (stepCNAE item (stepCBO item []))))

/-- Dispatch of `extrair_cbo_cnae_de_json` on the parsed payload: one
record per dict element of a list (non-dicts skipped), one record for a
single dict, nothing otherwise. -/
def extrairFromValTeste : PyVal → List (List (String × PyVal))
  | .list xs => (xs.filterMap PyVal.asDict).map extrairItemTeste
  | .dict kvs => [extrairItemTeste kvs]
  | _ => []

/-- `extrair_cbo_cnae_de_json`: strip, repair (teste.py variant, always
applied before parsing), single parse attempt, extract; any parse failure
yields `[]`. -/
def extrair_cbo_cnae_de_json (s : String) : List (List (String × PyVal)) :=
  match json_loads (limparTeste (pyStrip s.data)) with
  | some v => extrairFromValTeste v
  | Option.none => []

/-- One column of teste.py's scalar copy: keep it unless it is the
payload column, missing, or payload-shaped text. -/
def copyFunTeste (acc : Row) (kv : String × PyVal) : Row :=
  if kv.1 ≠ "Margens Prev" ∧ pdNotna kv.2 = true ∧ isJsonShaped kv.2 = false
  then assocSet acc kv.1 kv.2 else acc

/-- The scalar-column copy of teste.py's merge step: every column except
`Margens Prev` whose value is present and not payload-shaped text. -/
def copyScalarsTeste (row : Row) : Row :=
  row.foldl copyFunTeste []

/-- One iteration of the `excel_extrair_cbo_cnae` row loop: rows whose
`Margens Prev` cell is missing, non-string, or not brace/bracket-shaped
contribute nothing; otherwise one output row per extracted record. -/
def processRowTeste (row : Row) : List Row :=
  match List.lookup "Margens Prev" row with
  | some val =>
      if pdNotna val then
        match val with
        | .str s =>
            let vs := pyStrip s.data
            if startsJson vs then
              (extrair_cbo_cnae_de_json (String.mk vs)).map
                (fun reg => assocUpdate (copyScalarsTeste row) reg)
            else []
        | _ => []
      else []
  | Option.none => []

/-- The pandas `Nome` deduplication key: a missing column and a missing
value are both NaN in the materialized DataFrame. -/
def nomeKey (r : Row) : Option PyVal :=
  match List.lookup "Nome" r with
  | some v => if pdNotna v then some v else Option.none
  | Option.none => Option.none

/-- Equality of deduplication keys: pandas `duplicated` treats NaN cells
as equal to each other. -/
def pdKeyEq (a b : Option PyVal) : Bool :=
  match a, b with
  | some x, some y => PyVal.beq x y
  | Option.none, Option.none => true
  | _, _ => false

def dedupGo (seen : List (Option PyVal)) : List Row → List Row
  | [] => []
  | r :: rs =>
      if seen.any (pdKeyEq (nomeKey r)) then dedupGo seen rs
      else r :: dedupGo (nomeKey r :: seen) rs

/-- `df_saida.drop_duplicates(subset=['Nome'], keep='first')`, applied
only when the `Nome` column exists. -/
def drop_duplicates_nome (rows : List Row) : List Row :=
  if (unionKeys rows).contains "Nome" then dedupGo [] rows else rows

/-- Modelled from the spec's words for comparison with the code:
"keep the first occurrence in insertion order, drop subsequent rows
sharing the same key value", reading the pandas missing-`Nome` cells as
one shared key value. -/
def keepFirstByNomeSpec : List Row → List Row
  | [] => []
  | r :: rs =>
      r :: keepFirstByNomeSpec (rs.filter fun x => !pdKeyEq (nomeKey x) (nomeKey r))
termination_by rows => rows.length
decreasing_by
  simp only [List.length_cons]
  exact Nat.lt_succ_of_le (List.length_filter_le _ rs)

/-- teste.py's output column order: `Nome, CPF, CBO, CNAE, Empregador`
when present, then the remaining columns in DataFrame order. -/
def colunasDesejadas (cols : List String) : List String :=
  let base := (["Nome", "CPF", "CBO", "CNAE", "Empregador"].filter
    fun c => cols.contains c)
  base ++ cols.filter (fun c => !base.contains c)

/-- The pure core of `excel_extrair_cbo_cnae`: if nothing was extracted
the original table is re-emitted unchanged; otherwise the extracted rows
are deduplicated by `Nome` and the columns reordered. -/
def excel_extrair_cbo_cnae (t : Table) : Table :=
  match t.rows.flatMap processRowTeste with
  | [] => t
  | _ :: _ =>
      let todas := t.rows.flatMap processRowTeste
      ⟨colunasDesejadas (unionKeys todas), drop_duplicates_nome todas⟩

/-! ### processar_propostas.py: extraction, merge and `processar_arquivo` -/
/-- `extrair_registros_de_margens`: missing value → no records; an
already-structured list/dict passes through; a string goes through
`safe_load_json`; a dict gives one record, a list keeps its dict
elements in order, anything else gives none.  (`pd.isna` on an actual
list/dict argument would raise in pandas; cells read from files are
scalars, so the pass-through branch is modelled as reachable only for
structured values, where `pd.isna` is falsy.) -/
def extrair_registros_de_margens (v : PyVal) : List (List (String × PyVal)) :=
  if pdNotna v = false then []
  else
    let parsed : Option PyVal :=
      match v with
      | .list xs => some (.list xs)
      | .dict kvs => some (.dict kvs)
      | .str s => safe_load_json (pyStrip s.data)
      | _ => Option.none
    match parsed with
    | Option.none => []
    | some (.dict kvs) => [kvs]
    | some (.list xs) => xs.filterMap PyVal.asDict
    | some _ => []

/-- One column of `mapear_linha`'s top-level copy: skip the exact name
`Margens Prev`, keep every other present value verbatim. -/
def copyFunProc (acc : Row) (kv : String × PyVal) : Row :=
  if kv.1 = "Margens Prev" then acc
  else if pdNotna kv.2 then assocSet acc kv.1 kv.2 else acc

/-- `mapear_linha`'s top-level column copy. -/
def copyColsProc (row : Row) : Row :=
  row.foldl copyFunProc []

/-- `mapear_linha`'s CBO fields: only when `item['cbo']` is a dict and
truthy (i.e. non-empty). -/
def stepMapCBO (item : List (String × PyVal)) (acc : Row) : Row :=
  match List.lookup "cbo" item with
  | some (.dict kvs) =>
      if !kvs.isEmpty then
        assocSet (assocSet acc "MargensPrev_CBO_Codigo" (dictGetD kvs "codigo" .none))
          "MargensPrev_CBO_Descricao" (dictGetD kvs "descricao" .none)
      else acc
  | _ => acc

/-- `mapear_linha`'s CNAE fields. -/
def stepMapCNAE (item : List (String × PyVal)) (acc : Row) : Row :=
  match List.lookup "cnae" item with
  | some (.dict kvs) =>
      if !kvs.isEmpty then
        assocSet (assocSet acc "MargensPrev_CNAE_Codigo" (dictGetD kvs "codigo" .none))
          "MargensPrev_CNAE_Descricao" (dictGetD kvs "descricao" .none)
      else acc
  | _ => acc

/-- One fixed inner field of `mapear_linha` (`MargensPrev_<k>`). -/
def fixedFun (item : List (String × PyVal)) (acc : Row) (k : String) : Row :=
  match List.lookup k item with
  | some v => assocSet acc ("MargensPrev_" ++ k) v
  | Option.none => acc

/-- The fixed inner-field keys of `mapear_linha`, in source order. -/
def fixedKeysProc : List String :=
  ["nome", "cpf", "nomeEmpregador", "valorMargemDisponivel", "valorBaseMargem"]

/-- `mapear_linha`: copy every present top-level column except the exact
name `Margens Prev`, then the CBO/CNAE code-description fields (only when
the sub-object is a non-empty dict — Python truthiness), then the fixed
inner fields under `MargensPrev_*` keys. -/
def mapear_linha (row : Row) (item : List (String × PyVal)) : Row :=
  fixedKeysProc.foldl (fixedFun item)
    (stepMapCNAE item (stepMapCBO item (copyColsProc row)))

/-- `extrair_motivo_inelegibilidade`: a `(codigo, descricao)` pair from a
dict-shaped cell (parsed from text if needed); `(None, None)` otherwise. -/
def extrair_motivo_inelegibilidade (v : PyVal) : PyVal × PyVal :=
  if pdNotna v = false then (.none, .none)
  else
    match v with
    | .str s =>
        match safe_load_json (pyStrip s.data) with
        | some (.dict kvs) =>
            (dictGetD kvs "codigo" .none, dictGetD kvs "descricao" .none)
        | _ => (.none, .none)
    | .dict kvs => (dictGetD kvs "codigo" .none, dictGetD kvs "descricao" .none)
    | _ => (.none, .none)

/-- The accepted header variants for the payload column, in priority
order. -/
def margensCandidates : List String := ["Margens Prev", "MargensPrev", "Margens_Prev"]

/-- The accepted header variants for the eligibility column. -/
def motivoCandidates : List String :=
  ["Motivo Inelegibilidade", "MotivoInelegibilidade", "Motivo"]

/-- The motivo pair resolved for a row (first candidate column present,
else `(None, None)`). -/
def motivoOfRow (row : Row) : PyVal × PyVal :=
  match motivoCandidates.find? (fun c => (List.lookup c row).isSome) with
  | some c => extrair_motivo_inelegibilidade ((List.lookup c row).getD .none)
  | Option.none => (.none, .none)

/-- The payload value resolved for a row. -/
def margemValOfRow (row : Row) : PyVal :=
  match margensCandidates.find? (fun c => (List.lookup c row).isSome) with
  | some c => (List.lookup c row).getD .none
  | Option.none => .none

/-- Add the two fixed eligibility keys when at least one side is not
`None` (both are then written, possibly as an explicit `None`). -/
def addMotivo (m : PyVal × PyVal) (out : Row) : Row :=
  if !m.1.isNone || !m.2.isNone then
    assocSet (assocSet out "MotivoInelegibilidade_Codigo" m.1)
      "MotivoInelegibilidade_Descricao" m.2
  else out

/-- The zero-record fallback row of `processar_arquivo`: every present,
non-payload-shaped column (the payload column included when its text is
not brace/bracket-shaped). -/
def fallbackRow (row : Row) : Row :=
  row.foldl (fun acc kv =>
    if pdNotna kv.2 = true ∧ isJsonShaped kv.2 = false
    then assocSet acc kv.1 kv.2 else acc) []

/-- One iteration of the `processar_arquivo` row loop. -/
def processRowProc (row : Row) : List Row :=
  let registros := extrair_registros_de_margens (margemValOfRow row)
  let motivo := motivoOfRow row
  match registros with
  | [] =>
      let out := addMotivo motivo (fallbackRow row)
      if out.isEmpty then [] else [out]
  | _ :: _ => registros.map (fun reg => addMotivo motivo (mapear_linha row reg))

/-- The priority column list of `processar_arquivo` (verbatim, including
the mojibake headers of the source). -/
def prioridadeProc : List String :=
  ["Parceiro", "Data de abertura da proposta", "NÃºmero da Proposta",
    "Status da Proposta", "Nome do UsuÃ¡rio", "CPF do UsuÃ¡rio",
    "MargensPrev_CBO_Codigo", "MargensPrev_CBO_Descricao",
    "MargensPrev_CNAE_Codigo", "MargensPrev_CNAE_Descricao",
    "MotivoInelegibilidade_Codigo", "MotivoInelegibilidade_Descricao"]

/-- The pure core of `processar_arquivo`: per-row fan-out, then either
the fallback copy of the source table (no rows extracted) or the
assembled table with priority column ordering.  No deduplication happens
in this pipeline. -/
def processar_arquivo (t : Table) : Table :=
  match t.rows.flatMap processRowProc with
  | [] => t
  | _ :: _ =>
      let linhas := t.rows.flatMap processRowProc
      let dfCols := unionKeys linhas
      let base := prioridadeProc.filter (fun c => dfCols.contains c)
      ⟨base ++ dfCols.filter (fun c => !base.contains c), linhas⟩

/-! ## Theorems -/

example : assocSet [("a", .int 1), ("b", .int 2)] "a" (.int 9)
    = [("a", .int 9), ("b", .int 2)] := rfl

example : PyVal.beq (.list [.int 1]) (.list [.int 1]) = true := rfl

theorem dropWhile_len_le (p : Char → Bool) :
    ∀ l : List Char, (l.dropWhile p).length ≤ l.length
  | [] => by simp
  | c :: rest => by
      rw [List.dropWhile_cons]
      split
      · exact le_trans (dropWhile_len_le p rest) (by simp)
      · exact le_refl _

theorem subCDF_succ_colon (d : Char) (f : Nat) (rest : List Char) :
    subCDF d (f + 1) (':' :: rest)
      = match rest.dropWhile isPySpace with
        | d' :: tail =>
            if d' = d then
              ':' :: 'n' :: 'u' :: 'l' :: 'l' :: d :: subCDF d f tail
            else ':' :: subCDF d f rest
        | [] => ':' :: subCDF d f rest := by
  rw [subCDF, if_pos rfl]

theorem subCDF_succ_ne (d c : Char) (f : Nat) (rest : List Char)
    (h : c ≠ ':') :
    subCDF d (f + 1) (c :: rest) = c :: subCDF d f rest := by
  rw [subCDF, if_neg h]

theorem subCDF_fuel (d : Char) :
    ∀ fuel₁ fuel₂ l, l.length ≤ fuel₁ → l.length ≤ fuel₂ →
      subCDF d fuel₁ l = subCDF d fuel₂ l := by
  intro fuel₁
  induction fuel₁ with
  | zero =>
      intro fuel₂ l h1 _
      have : l = [] := List.eq_nil_of_length_eq_zero (Nat.le_zero.mp h1)
      subst this
      cases fuel₂ <;> rfl
  | succ f ih =>
      intro fuel₂ l h1 h2
      match l with
      | [] => cases fuel₂ <;> rfl
      | c :: rest =>
          match fuel₂ with
          | 0 => simp at h2
          | g + 1 =>
              simp only [List.length_cons, Nat.add_le_add_iff_right] at h1 h2
              by_cases hc : c = ':'
              · subst hc
                rw [subCDF_succ_colon, subCDF_succ_colon]
                cases heq : rest.dropWhile isPySpace with
                | nil => rw [ih g rest h1 h2]
                | cons d' tail =>
                    have hlen : (rest.dropWhile isPySpace).length ≤ rest.length :=
                      dropWhile_len_le _ _
                    rw [heq] at hlen
                    simp only [List.length_cons] at hlen
                    dsimp only
                    by_cases hd : d' = d
                    · rw [if_pos hd, if_pos hd,
                        ih g tail (by omega) (by omega)]
                    · rw [if_neg hd, if_neg hd, ih g rest h1 h2]
              · rw [subCDF_succ_ne d c f rest hc, subCDF_succ_ne d c g rest hc,
                  ih g rest h1 h2]

theorem subCD_nil (d : Char) : subCD d [] = [] := rfl

theorem subCD_cons_ne (d c : Char) (rest : List Char) (h : c ≠ ':') :
    subCD d (c :: rest) = c :: subCD d rest := by
  rw [subCD, List.length_cons, subCDF_succ_ne d c rest.length rest h, subCD]

theorem subCD_cons_match (d : Char) (rest tail : List Char)
    (h : rest.dropWhile isPySpace = d :: tail) :
    subCD d (':' :: rest)
      = ':' :: 'n' :: 'u' :: 'l' :: 'l' :: d :: subCD d tail := by
  have hlen : (rest.dropWhile isPySpace).length ≤ rest.length :=
    dropWhile_len_le _ _
  rw [h] at hlen
  simp only [List.length_cons] at hlen
  rw [subCD, List.length_cons, subCDF_succ_colon, h]
  dsimp only
  rw [if_pos rfl, subCDF_fuel d rest.length tail.length tail (by omega) (by omega), subCD]

theorem subCD_cons_nomatch (d : Char) (rest : List Char)
    (h : startsWsD d rest = false) :
    subCD d (':' :: rest) = ':' :: subCD d rest := by
  rw [subCD, List.length_cons, subCDF_succ_colon]
  rw [startsWsD] at h
  cases heq : rest.dropWhile isPySpace with
  | nil =>
      dsimp only
      rw [subCD]
  | cons d' tail =>
      rw [heq] at h
      dsimp only at h ⊢
      have h' : d' ≠ d := by simpa using h
      rw [if_neg h', subCD]

theorem noMatch_nil (d : Char) : noMatch d [] = true := rfl

theorem noMatch_cons_colon (d : Char) (rest : List Char) :
    noMatch d (':' :: rest) = (!startsWsD d rest && noMatch d rest) := by
  simp [noMatch]

theorem noMatch_cons_ne (d c : Char) (rest : List Char) (h : c ≠ ':') :
    noMatch d (c :: rest) = noMatch d rest := by
  simp [noMatch, h]

theorem noMatch_tail (d c : Char) (rest : List Char)
    (h : noMatch d (c :: rest) = true) : noMatch d rest = true := by
  by_cases hc : c = ':'
  · subst hc
    rw [noMatch_cons_colon, Bool.and_eq_true] at h
    exact h.2
  · rwa [noMatch_cons_ne d c rest hc] at h

theorem noMatch_suffix (d : Char) :
    ∀ p t : List Char, noMatch d (p ++ t) = true → noMatch d t = true
  | [], _, h => h
  | c :: p, t, h => noMatch_suffix d p t (noMatch_tail d c (p ++ t) h)

theorem subCD_append_nocolon (d : Char) :
    ∀ p t : List Char, (∀ c ∈ p, c ≠ ':') →
      subCD d (p ++ t) = p ++ subCD d t
  | [], _, _ => rfl
  | c :: p, t, h => by
      have hc : c ≠ ':' := h c (List.mem_cons_self c p)
      rw [List.cons_append, subCD_cons_ne d c (p ++ t) hc,
        subCD_append_nocolon d p t (fun x hx => h x (List.mem_cons_of_mem c hx)),
        List.cons_append]

theorem subCD_cons_head (e c : Char) (l : List Char) :
    ∃ u, subCD e (c :: l) = c :: u := by
  by_cases hc : c = ':'
  · subst hc
    cases heq : l.dropWhile isPySpace with
    | nil =>
        refine ⟨subCD e l, ?_⟩
        exact subCD_cons_nomatch e l (by simp [startsWsD, heq])
    | cons d' tail =>
        by_cases hd : d' = e
        · subst hd
          exact ⟨'n' :: 'u' :: 'l' :: 'l' :: d' :: subCD d' tail,
            subCD_cons_match d' l tail heq⟩
        · refine ⟨subCD e l, ?_⟩
          exact subCD_cons_nomatch e l (by simp [startsWsD, heq, hd])
  · exact ⟨subCD e l, subCD_cons_ne e c l hc⟩

theorem isPySpace_head_dropWhile (t : List Char) (c : Char) (tail : List Char)
    (heq : t.dropWhile isPySpace = c :: tail) : isPySpace c = false := by
  have h := List.head?_dropWhile_not isPySpace t
  rw [heq] at h
  simpa using h

theorem startsWsD_subCD (d e : Char) (t : List Char)
    (h : startsWsD d t = false) : startsWsD d (subCD e t) = false := by
  have hsplit : t.takeWhile isPySpace ++ t.dropWhile isPySpace = t :=
    List.takeWhile_append_dropWhile isPySpace t
  have hws : ∀ c ∈ t.takeWhile isPySpace, isPySpace c = true :=
    fun c hc => List.mem_takeWhile_imp hc
  have hwsne : ∀ c ∈ t.takeWhile isPySpace, c ≠ ':' := by
    intro c hc hcolon
    have := hws c hc
    rw [hcolon] at this
    exact absurd this (by decide)
  cases heq : t.dropWhile isPySpace with
  | nil =>
      have ht : subCD e t = t.takeWhile isPySpace := by
        conv_lhs => rw [← hsplit, heq]
        rw [List.append_nil, ← List.append_nil (t.takeWhile isPySpace)]
        rw [subCD_append_nocolon e _ [] hwsne, subCD_nil, List.append_nil]
      rw [ht, startsWsD, List.dropWhile_eq_nil_iff.mpr hws]
  | cons c tail =>
      have hc : isPySpace c = false := isPySpace_head_dropWhile t c tail heq
      have hcd : c ≠ d := by
        rw [startsWsD, heq] at h
        simpa using h
      obtain ⟨u, hu⟩ := subCD_cons_head e c tail
      have ht : subCD e t = t.takeWhile isPySpace ++ (c :: u) := by
        conv_lhs => rw [← hsplit, heq]
        rw [subCD_append_nocolon e _ _ hwsne, hu]
      rw [ht, startsWsD, List.dropWhile_append_of_pos hws,
        List.dropWhile_cons_of_neg (by simp [hc])]
      simpa using hcd

theorem startsWsD_null_run (d e : Char) (u : List Char) (hdn : d ≠ 'n') :
    startsWsD d ('n' :: 'u' :: 'l' :: 'l' :: e :: u) = false := by
  rw [startsWsD, List.dropWhile_cons_of_neg (by decide)]
  simp [Ne.symm hdn]

theorem noMatch_null_run (d e : Char) (u : List Char) (he : e ≠ ':')
    (hu : noMatch d u = true) :
    noMatch d ('n' :: 'u' :: 'l' :: 'l' :: e :: u) = true := by
  rw [noMatch_cons_ne d 'n' _ (by decide), noMatch_cons_ne d 'u' _ (by decide),
    noMatch_cons_ne d 'l' _ (by decide), noMatch_cons_ne d 'l' _ (by decide),
    noMatch_cons_ne d e _ he]
  exact hu

theorem len_tail_lt (rest : List Char) (d' : Char) (tail : List Char)
    (heq : rest.dropWhile isPySpace = d' :: tail) :
    tail.length < rest.length := by
  have h := dropWhile_len_le isPySpace rest
  rw [heq] at h
  simp only [List.length_cons] at h
  omega

/-- After one `:\s*<d>` substitution pass, no `:\s*<d>` match remains. -/
theorem noMatch_subCD_self (d : Char) (hd1 : d ≠ ':') (hdn : d ≠ 'n') :
    ∀ l : List Char, noMatch d (subCD d l) = true
  | [] => by rw [subCD_nil, noMatch_nil]
  | c :: rest => by
      by_cases hc : c = ':'
      · subst hc
        cases heq : rest.dropWhile isPySpace with
        | nil =>
            have hsw : startsWsD d rest = false := by simp [startsWsD, heq]
            rw [subCD_cons_nomatch d rest hsw, noMatch_cons_colon,
              startsWsD_subCD d d rest hsw]
            simpa using noMatch_subCD_self d hd1 hdn rest
        | cons d' tail =>
            by_cases hd' : d' = d
            · subst hd'
              rw [subCD_cons_match d' rest tail heq, noMatch_cons_colon,
                startsWsD_null_run d' d' _ hdn]
              simpa using noMatch_null_run d' d' _ hd1
                (noMatch_subCD_self d' hd1 hdn tail)
            · have hsw : startsWsD d rest = false := by
                simp [startsWsD, heq, hd']
              rw [subCD_cons_nomatch d rest hsw, noMatch_cons_colon,
                startsWsD_subCD d d rest hsw]
              simpa using noMatch_subCD_self d hd1 hdn rest
      · rw [subCD_cons_ne d c rest hc, noMatch_cons_ne d c _ hc]
        exact noMatch_subCD_self d hd1 hdn rest
termination_by l => l.length
decreasing_by
  · simp only [List.length_cons]; omega
  · exact Nat.lt_succ_of_lt (len_tail_lt rest d' tail heq)
  · simp only [List.length_cons]; omega
  · simp only [List.length_cons]; omega

/-- A `:\s*<e>` substitution pass cannot create a `:\s*<d>` match. -/
theorem noMatch_subCD_other (d e : Char) (hdn : d ≠ 'n') (he : e ≠ ':') :
    ∀ l : List Char, noMatch d l = true → noMatch d (subCD e l) = true
  | [] => fun _ => by rw [subCD_nil, noMatch_nil]
  | c :: rest => fun h => by
      by_cases hc : c = ':'
      · subst hc
        rw [noMatch_cons_colon, Bool.and_eq_true, Bool.not_eq_true'] at h
        obtain ⟨hsw0, hrest⟩ := h
        cases heq : rest.dropWhile isPySpace with
        | nil =>
            have hsw : startsWsD e rest = false := by simp [startsWsD, heq]
            rw [subCD_cons_nomatch e rest hsw, noMatch_cons_colon,
              startsWsD_subCD d e rest hsw0]
            simpa using noMatch_subCD_other d e hdn he rest hrest
        | cons d' tail =>
            by_cases hd' : d' = e
            · subst hd'
              have htail : noMatch d tail = true := by
                have hsplit : rest.takeWhile isPySpace ++ (d' :: tail) = rest := by
                  rw [← heq]
                  exact List.takeWhile_append_dropWhile isPySpace rest
                have h1 : noMatch d (d' :: tail) = true :=
                  noMatch_suffix d (rest.takeWhile isPySpace) (d' :: tail)
                    (by rw [hsplit]; exact hrest)
                exact noMatch_tail d d' tail h1
              rw [subCD_cons_match d' rest tail heq, noMatch_cons_colon,
                startsWsD_null_run d d' _ hdn]
              simpa using noMatch_null_run d d' _ he
                (noMatch_subCD_other d d' hdn he tail htail)
            · have hsw : startsWsD e rest = false := by
                simp [startsWsD, heq, hd']
              rw [subCD_cons_nomatch e rest hsw, noMatch_cons_colon,
                startsWsD_subCD d e rest hsw0]
              simpa using noMatch_subCD_other d e hdn he rest hrest
      · rw [subCD_cons_ne e c rest hc, noMatch_cons_ne d c _ hc]
        rw [noMatch_cons_ne d c rest hc] at h
        exact noMatch_subCD_other d e hdn he rest h
termination_by l => l.length
decreasing_by
  · simp only [List.length_cons]; omega
  · exact Nat.lt_succ_of_lt (len_tail_lt rest d' tail heq)
  · simp only [List.length_cons]; omega
  · simp only [List.length_cons]; omega

/-- On match-free text the substitution pass is the identity. -/
theorem subCD_of_noMatch (d : Char) :
    ∀ l : List Char, noMatch d l = true → subCD d l = l
  | [] => fun _ => subCD_nil d
  | c :: rest => fun h => by
      by_cases hc : c = ':'
      · subst hc
        rw [noMatch_cons_colon, Bool.and_eq_true, Bool.not_eq_true'] at h
        rw [subCD_cons_nomatch d rest h.1, subCD_of_noMatch d rest h.2]
      · rw [subCD_cons_ne d c rest hc, noMatch_cons_ne d c rest hc] at *
        rw [subCD_of_noMatch d rest h]
termination_by l => l.length
decreasing_by
  · simp only [List.length_cons]; omega
  · simp only [List.length_cons]; omega

/-- Every character of `subCD d l` comes from `l` or from `:null<d>`. -/
theorem mem_subCD (d : Char) :
    ∀ (l : List Char) (x : Char), x ∈ subCD d l →
      x ∈ l ∨ x = d ∨ x ∈ [':', 'n', 'u', 'l']
  | [] => by intro x hx; rw [subCD_nil] at hx; cases hx
  | c :: rest => by
      intro x hx
      by_cases hc : c = ':'
      · subst hc
        cases heq : rest.dropWhile isPySpace with
        | nil =>
            rw [subCD_cons_nomatch _ rest (by simp [startsWsD, heq])] at hx
            rcases List.mem_cons.mp hx with h | h
            · exact Or.inr (Or.inr (by subst h; decide))
            · rcases mem_subCD d rest x h with h' | h'
              · exact Or.inl (List.mem_cons_of_mem _ h')
              · exact Or.inr h'
        | cons d' tail =>
            by_cases hd' : d' = d
            · subst hd'
              rw [subCD_cons_match d' rest tail heq] at hx
              simp only [List.mem_cons] at hx
              rcases hx with h | h | h | h | h | h | h
              · exact Or.inr (Or.inr (by subst h; decide))
              · exact Or.inr (Or.inr (by subst h; decide))
              · exact Or.inr (Or.inr (by subst h; decide))
              · exact Or.inr (Or.inr (by subst h; decide))
              · exact Or.inr (Or.inr (by subst h; decide))
              · exact Or.inr (Or.inl h)
              · rcases mem_subCD d' tail x h with h' | h'
                · refine Or.inl (List.mem_cons_of_mem _ ?_)
                  have hsuf : rest.dropWhile isPySpace <:+ rest :=
                    List.dropWhile_suffix isPySpace
                  rw [heq] at hsuf
                  exact hsuf.subset (List.mem_cons_of_mem _ h')
                · exact Or.inr h'
            · rw [subCD_cons_nomatch _ rest (by simp [startsWsD, heq, hd'])] at hx
              rcases List.mem_cons.mp hx with h | h
              · exact Or.inr (Or.inr (by subst h; decide))
              · rcases mem_subCD d rest x h with h' | h'
                · exact Or.inl (List.mem_cons_of_mem _ h')
                · exact Or.inr h'
      · rw [subCD_cons_ne d c rest hc] at hx
        rcases List.mem_cons.mp hx with h | h
        · exact Or.inl (h ▸ List.mem_cons_self c rest)
        · rcases mem_subCD d rest x h with h' | h'
          · exact Or.inl (List.mem_cons_of_mem _ h')
          · exact Or.inr h'
termination_by l => l.length
decreasing_by
  · simp only [List.length_cons]; omega
  · exact Nat.lt_succ_of_lt (len_tail_lt rest d' tail heq)
  · simp only [List.length_cons]; omega
  · simp only [List.length_cons]; omega

theorem nul_notMem_subCD (d : Char) (hd : d ≠ '\x00') (l : List Char)
    (h : '\x00' ∉ l) : '\x00' ∉ subCD d l := by
  intro hx
  rcases mem_subCD d l '\x00' hx with h' | h' | h'
  · exact h h'
  · exact hd h'.symm
  · exact absurd h' (by decide)

theorem nul_notMem_subAll (s : List Char) (h : '\x00' ∉ s) :
    '\x00' ∉ subAll s :=
  nul_notMem_subCD ']' (by decide) _
    (nul_notMem_subCD '}' (by decide) _
      (nul_notMem_subCD ',' (by decide) _ h))

theorem filter_nul_of_notMem (l : List Char) (h : '\x00' ∉ l) :
    l.filter (fun c => c ≠ '\x00') = l := by
  apply List.filter_eq_self.mpr
  intro a ha
  simp only [decide_eq_true_eq]
  intro he
  exact h (he ▸ ha)

theorem limpar_eq_subAll (s : List Char) (h : '\x00' ∉ s) :
    limpar_json_invalido s = subAll s :=
  filter_nul_of_notMem _ (nul_notMem_subAll s h)

theorem subAll_subAll (s : List Char) : subAll (subAll s) = subAll s := by
  have n1 : noMatch ',' (subCD ',' s) = true :=
    noMatch_subCD_self ',' (by decide) (by decide) s
  have n2 : noMatch ',' (subCD '}' (subCD ',' s)) = true :=
    noMatch_subCD_other ',' '}' (by decide) (by decide) _ n1
  have n3 : noMatch ',' (subAll s) = true :=
    noMatch_subCD_other ',' ']' (by decide) (by decide) _ n2
  have m1 : noMatch '}' (subCD '}' (subCD ',' s)) = true :=
    noMatch_subCD_self '}' (by decide) (by decide) _
  have m2 : noMatch '}' (subAll s) = true :=
    noMatch_subCD_other '}' ']' (by decide) (by decide) _ m1
  have k1 : noMatch ']' (subAll s) = true :=
    noMatch_subCD_self ']' (by decide) (by decide) _
  rw [subAll, subCD_of_noMatch ',' _ n3, subCD_of_noMatch '}' _ m2,
    subCD_of_noMatch ']' _ k1]

/-- On match-free, NUL-free text the whole repair is the identity. -/
theorem limpar_id_of_noMatch (s : List Char) (hn : '\x00' ∉ s)
    (h1 : noMatch ',' s = true) (h2 : noMatch '}' s = true)
    (h3 : noMatch ']' s = true) : limpar_json_invalido s = s := by
  rw [limpar_eq_subAll s hn, subAll, subCD_of_noMatch ',' s h1,
    subCD_of_noMatch '}' s h2, subCD_of_noMatch ']' s h3]

example :
    limpar_json_invalido "\x7b\"a\":,\"b\":1\x7d".toList
      = "\x7b\"a\":null,\"b\":1\x7d".toList := by decide

example :
    limpar_json_invalido "\x7b\"a\": \x7d".toList
      = "\x7b\"a\":null\x7d".toList := by decide

example : limpar_json_invalido "[1,2,]".toList = "[1,2,]".toList := by decide

example : limpar_json_invalido [':', '\x00', ','] = [':', ','] := by decide

example :
    limpar_json_invalido (limpar_json_invalido [':', '\x00', ','])
      = ':' :: 'n' :: 'u' :: 'l' :: 'l' :: ',' :: [] := by decide

example : json_loads "[1, 2]".toList = some (.list [.int 1, .int 2]) := rfl

example : json_loads "[1,2,]".toList = Option.none := rfl

example :
    json_loads "\x7b\"a\":null,\"b\":1\x7d".toList
      = some (.dict [("a", .none), ("b", .int 1)]) := rfl

example : json_loads "\"\x3a,\"".toList = some (.str ":,") := rfl

example : json_loads "-1.5e2".toList = some (.float (-15) 1) := rfl

example : json_loads "\x7b\"a\":,\"b\":1\x7d".toList = Option.none := rfl

example :
    safe_load_json "\x7b\"a\":,\"b\":1\x7d".toList
      = some (.dict [("a", .none), ("b", .int 1)]) := rfl

/-! ### Association-list lookup lemmas -/
theorem lookup_cons_eq_if (k a : String) (b : PyVal)
    (es : List (String × PyVal)) :
    List.lookup k ((a, b) :: es) = if k = a then some b else List.lookup k es := by
  by_cases h : k = a
  · simp [List.lookup, h]
  · rw [List.lookup, beq_eq_false_iff_ne.mpr h, if_neg h]

theorem lookup_assocSet (k k' : String) (v : PyVal) :
    ∀ m : List (String × PyVal),
      List.lookup k (assocSet m k' v)
        = if k = k' then some v else List.lookup k m
  | [] => by
      rw [assocSet, lookup_cons_eq_if]
  | (a, b) :: m => by
      rw [assocSet]
      by_cases ha : a = k'
      · rw [if_pos ha, lookup_cons_eq_if, lookup_cons_eq_if, ← ha]
        by_cases h : k = a
        · rw [if_pos h, if_pos h]
        · rw [if_neg h, if_neg h, if_neg h]
      · rw [if_neg ha, lookup_cons_eq_if, lookup_cons_eq_if]
        by_cases h : k = a
        · have hk' : ¬ k = k' := fun e => ha (h.symm.trans e)
          rw [if_pos h, if_neg hk', if_pos h]
        · rw [if_neg h, if_neg h, lookup_assocSet k k' v m]

theorem lookup_assocSet_ne (k k' : String) (v : PyVal)
    (m : List (String × PyVal)) (h : k ≠ k') :
    List.lookup k (assocSet m k' v) = List.lookup k m := by
  rw [lookup_assocSet, if_neg h]

theorem lookup_assocSet_self (k : String) (v : PyVal)
    (m : List (String × PyVal)) :
    List.lookup k (assocSet m k v) = some v := by
  rw [lookup_assocSet, if_pos rfl]

/-! ### Claim C2 — malformed-input recovery -/
/-- Claim C2 counterexample: the claim asserts a non-null structured
value for `[1,2,]`, but the two-stage parse (raw, then repaired) returns
null — no repair rule applies to `[1,2,]` because each rule requires a
colon before the delimiter. -/
theorem C2_counterexample :
    safe_load_json "[1,2,]".toList = Option.none := rfl

/-- Claim C2 (amended): for `\x7b"a":,"b":1\x7d` and `\x7b"a": \x7d` the
parse operation (raw attempt, then repair and retry) returns a non-null
structured value with the empty slot resolved to null; for `[1,2,]` the
repair leaves the text unchanged (its rules need a colon) and the parse
returns null. -/
theorem C2_parse_recovery :
    safe_load_json "\x7b\"a\":,\"b\":1\x7d".toList
        = some (.dict [("a", .none), ("b", .int 1)])
    ∧ safe_load_json "\x7b\"a\": \x7d".toList = some (.dict [("a", .none)])
    ∧ limpar_json_invalido "[1,2,]".toList = "[1,2,]".toList
    ∧ safe_load_json "[1,2,]".toList = Option.none :=
  ⟨rfl, rfl, rfl, rfl⟩

/-! ### Claim C3 — repair idempotence -/
/-- Claim C3 counterexample: on `":\x00,"` the NUL blocks the
colon-comma rule on the first pass (NUL is not regex whitespace), the
final NUL strip then creates a fresh `:,` occurrence, and a second
repair pass rewrites it — repair is not idempotent on all inputs. -/
theorem C3_counterexample :
    limpar_json_invalido (limpar_json_invalido [':', '\x00', ','])
      ≠ limpar_json_invalido [':', '\x00', ','] := by decide

/-- Claim C3 (amended): the repair (colon-comma, colon-brace,
colon-bracket substitutions, then NUL stripping) is idempotent on every
text containing no NUL character. -/
theorem C3_repair_idempotent (s : List Char) (h : '\x00' ∉ s) :
    limpar_json_invalido (limpar_json_invalido s) = limpar_json_invalido s := by
  rw [limpar_eq_subAll s h, limpar_eq_subAll (subAll s) (nul_notMem_subAll s h),
    subAll_subAll]

/-- Claim C3 witness: the amended idempotence at a concrete NUL-free
input that the repair does rewrite. -/
theorem C3_witness :
    ('\x00' ∉ "\x7b\"a\": \x7d".toList)
    ∧ limpar_json_invalido (limpar_json_invalido "\x7b\"a\": \x7d".toList)
        = limpar_json_invalido "\x7b\"a\": \x7d".toList :=
  ⟨by decide, C3_repair_idempotent _ (by decide)⟩

/-! ### Claim C4 — repair non-destructiveness on valid JSON -/
/-- Claim C4 counterexample: `":,"` is valid JSON (the two-character
string `:,`), but the repair rewrites inside the string literal, so the
parse after repair yields a different structured value. -/
theorem C4_counterexample :
    json_loads "\":,\"".toList = some (.str ":,")
    ∧ json_loads (limpar_json_invalido "\":,\"".toList)
        = some (.str ":null,")
    ∧ some (PyVal.str ":,") ≠ some (PyVal.str ":null,") := by
  refine ⟨rfl, rfl, ?_⟩
  intro h
  have h1 : PyVal.str ":," = PyVal.str ":null," := Option.some.inj h
  have h2 : (":," : String) = ":null," := by injection h1
  exact absurd h2 (by decide)

/-- Claim C4 (amended): on any text containing no
colon-whitespace-comma/brace/bracket occurrence and no NUL, the repair
is the identity, so parsing with or without prior repair agrees; valid
JSON that carries such a pattern inside a string literal is altered (see
the counterexample). -/
theorem C4_repair_nondestructive (s : List Char)
    (h1 : noMatch ',' s = true) (h2 : noMatch '}' s = true)
    (h3 : noMatch ']' s = true) (h4 : '\x00' ∉ s) :
    json_loads (limpar_json_invalido s) = json_loads s := by
  rw [limpar_id_of_noMatch s h4 h1 h2 h3]

/-- Claim C4 witness: the amended non-destructiveness at a concrete
valid-JSON input. -/
theorem C4_witness :
    noMatch ',' "\x7b\"a\": 1\x7d".toList = true
    ∧ noMatch '}' "\x7b\"a\": 1\x7d".toList = true
    ∧ noMatch ']' "\x7b\"a\": 1\x7d".toList = true
    ∧ ('\x00' ∉ "\x7b\"a\": 1\x7d".toList)
    ∧ json_loads (limpar_json_invalido "\x7b\"a\": 1\x7d".toList)
        = json_loads "\x7b\"a\": 1\x7d".toList :=
  ⟨by decide, by decide, by decide, by decide,
    C4_repair_nondestructive _ (by decide) (by decide) (by decide) (by decide)⟩

/-! ### Claim C9 — empty-extraction fallback -/
/-- Claim C9: when whole-table extraction produces zero output rows,
both pipelines emit the original source table unmodified, with the same
row count and column count. -/
theorem C9_empty_extraction_fallback (t₁ t₂ : Table)
    (h₁ : t₁.rows.flatMap processRowProc = [])
    (h₂ : t₂.rows.flatMap processRowTeste = []) :
    processar_arquivo t₁ = t₁ ∧ excel_extrair_cbo_cnae t₂ = t₂
    ∧ (processar_arquivo t₁).rows.length = t₁.rows.length
    ∧ (processar_arquivo t₁).cols.length = t₁.cols.length
    ∧ (excel_extrair_cbo_cnae t₂).rows.length = t₂.rows.length
    ∧ (excel_extrair_cbo_cnae t₂).cols.length = t₂.cols.length := by
  have e1 : processar_arquivo t₁ = t₁ := by
    simp only [processar_arquivo, h₁]
  have e2 : excel_extrair_cbo_cnae t₂ = t₂ := by
    simp only [excel_extrair_cbo_cnae, h₂]
  exact ⟨e1, e2, by rw [e1], by rw [e1], by rw [e2], by rw [e2]⟩

/-- Claim C9 witness: the fallback at concrete one-row tables whose
payloads yield nothing (an unparseable brace-shaped payload, and a table
without a payload column). -/
theorem C9_witness :
    (Table.mk ["Margens Prev"]
        [[("Margens Prev", PyVal.str "\x7bbad")]]).rows.flatMap processRowProc = []
    ∧ (Table.mk ["A"] [[("A", PyVal.int 1)]]).rows.flatMap processRowTeste = []
    ∧ processar_arquivo
        (Table.mk ["Margens Prev"] [[("Margens Prev", PyVal.str "\x7bbad")]])
        = Table.mk ["Margens Prev"] [[("Margens Prev", PyVal.str "\x7bbad")]]
    ∧ excel_extrair_cbo_cnae (Table.mk ["A"] [[("A", PyVal.int 1)]])
        = Table.mk ["A"] [[("A", PyVal.int 1)]] := by
  have h := C9_empty_extraction_fallback
    (Table.mk ["Margens Prev"] [[("Margens Prev", PyVal.str "\x7bbad")]])
    (Table.mk ["A"] [[("A", PyVal.int 1)]]) rfl rfl
  exact ⟨rfl, rfl, h.1, h.2.1⟩

/-! ### Claim C10 — non-brace/bracket payload text is skipped in teste.py -/
/-- Claim C10: in the teste.py pipeline, a row whose payload cell holds a
string that (after stripping) does not begin with a brace or bracket
contributes zero output rows — no parse or extraction is attempted, even
when the text is valid JSON. -/
theorem C10_non_json_text_no_extraction (row : Row) (s : String)
    (h1 : List.lookup "Margens Prev" row = some (.str s))
    (h2 : startsJson (pyStrip s.data) = false) :
    processRowTeste row = [] := by
  unfold processRowTeste
  rw [h1]
  simp [pdNotna, h2]

/-- Claim C10 witness: a bare-number payload (valid JSON for
`json.loads`) still yields zero output rows. -/
theorem C10_witness :
    List.lookup "Margens Prev" [("Margens Prev", PyVal.str "123")]
        = some (PyVal.str "123")
    ∧ startsJson (pyStrip ("123" : String).data) = false
    ∧ json_loads ("123" : String).toList = some (.int 123)
    ∧ processRowTeste [("Margens Prev", PyVal.str "123")] = [] :=
  ⟨rfl, by decide, rfl,
    C10_non_json_text_no_extraction _ "123" rfl (by decide)⟩

/-! ### Claim C5 — extraction totality and order preservation -/
theorem filterMap_asDict_map_dict :
    ∀ xs : List PyVal,
      (xs.filterMap PyVal.asDict).map PyVal.dict = xs.filter PyVal.isDict
  | [] => rfl
  | x :: xs => by
      cases x <;>
        simp [PyVal.asDict, PyVal.isDict, filterMap_asDict_map_dict xs]

/-- Claim C5: extraction is total and order-preserving — a null payload
yields no records, and on a parsed array each dict element yields
exactly one entity record (its own field map), non-dict elements are
silently skipped, and records keep the array order (wrapping the output
records back into dict values reproduces exactly the dict elements of
the array, in order).  Both the processar_propostas extractor and the
teste.py extractor are covered. -/
theorem C5_extraction_total_ordered :
    extrair_registros_de_margens PyVal.none = []
    ∧ (∀ xs : List PyVal,
        (extrair_registros_de_margens (.list xs)).map PyVal.dict
          = xs.filter PyVal.isDict)
    ∧ (∀ xs : List PyVal,
        (extrair_registros_de_margens (.list xs)).length
          = (xs.filter PyVal.isDict).length)
    ∧ extrairFromValTeste PyVal.none = []
    ∧ (∀ xs : List PyVal,
        extrairFromValTeste (.list xs)
          = (xs.filterMap PyVal.asDict).map extrairItemTeste)
    ∧ (∀ xs : List PyVal,
        (extrairFromValTeste (.list xs)).length
          = (xs.filter PyVal.isDict).length) := by
  have hmain : ∀ xs : List PyVal,
      (extrair_registros_de_margens (.list xs)).map PyVal.dict
        = xs.filter PyVal.isDict := by
    intro xs
    show (xs.filterMap PyVal.asDict).map PyVal.dict = xs.filter PyVal.isDict
    exact filterMap_asDict_map_dict xs
  refine ⟨rfl, hmain, ?_, rfl, fun _ => rfl, ?_⟩
  · intro xs
    rw [← hmain xs, List.length_map]
  · intro xs
    show ((xs.filterMap PyVal.asDict).map extrairItemTeste).length
      = (xs.filter PyVal.isDict).length
    rw [List.length_map, ← filterMap_asDict_map_dict xs, List.length_map]

/-! ### Claim C6 — code/description display policy -/
theorem lookup_stepCBO_ne (k : String) (h : k ≠ "CBO")
    (item acc : List (String × PyVal)) :
    List.lookup k (stepCBO item acc) = List.lookup k acc := by
  unfold stepCBO
  split
  · rw [lookup_assocSet_ne _ _ _ _ h]
  · rfl

theorem lookup_stepCNAE_ne (k : String) (h : k ≠ "CNAE")
    (item acc : List (String × PyVal)) :
    List.lookup k (stepCNAE item acc) = List.lookup k acc := by
  unfold stepCNAE
  split
  · rw [lookup_assocSet_ne _ _ _ _ h]
  · rfl

theorem lookup_stepNome_ne (k : String) (h : k ≠ "Nome")
    (item acc : List (String × PyVal)) :
    List.lookup k (stepNome item acc) = List.lookup k acc := by
  unfold stepNome
  split
  · rw [lookup_assocSet_ne _ _ _ _ h]
  · rfl

theorem lookup_stepCPF_ne (k : String) (h : k ≠ "CPF")
    (item acc : List (String × PyVal)) :
    List.lookup k (stepCPF item acc) = List.lookup k acc := by
  unfold stepCPF
  split
  · rw [lookup_assocSet_ne _ _ _ _ h]
  · rfl

theorem lookup_stepEmpregador_ne (k : String) (h : k ≠ "Empregador")
    (item acc : List (String × PyVal)) :
    List.lookup k (stepEmpregador item acc) = List.lookup k acc := by
  unfold stepEmpregador
  split
  · rw [lookup_assocSet_ne _ _ _ _ h]
  · rfl

theorem displayCodigoDescricao_strings (c d : String) :
    displayCodigoDescricao [("codigo", .str c), ("descricao", .str d)]
      = .str (if c = "" then "" else c ++ " - " ++ d) := by
  unfold displayCodigoDescricao
  dsimp only
  have hc : dictGetD [("codigo", PyVal.str c), ("descricao", PyVal.str d)]
      "codigo" (.str "") = .str c := rfl
  have hd : dictGetD [("codigo", PyVal.str c), ("descricao", PyVal.str d)]
      "descricao" (.str "") = .str d := rfl
  rw [hc, hd]
  by_cases h : c = ""
  · subst h
    rfl
  · have ht : pyTruthy (.str c) = true := by
      simp [pyTruthy, h]
    rw [ht, if_pos rfl, if_neg h]
    rfl

/-- Claim C6: for every occupation or industry code/description
sub-object with string fields, the extractor emits the combined
`"<code> - <description>"` display string exactly when the code is
non-empty, and the empty display string when the code is empty — for any
surrounding fields `rest` of the entity object. -/
theorem C6_display_policy :
    (∀ (c d : String) (rest : List (String × PyVal)),
      List.lookup "CBO" (extrairItemTeste
          (("cbo", PyVal.dict [("codigo", .str c), ("descricao", .str d)]) :: rest))
        = some (.str (if c = "" then "" else c ++ " - " ++ d)))
    ∧ (∀ (c d : String) (rest : List (String × PyVal)),
      List.lookup "CNAE" (extrairItemTeste
          (("cnae", PyVal.dict [("codigo", .str c), ("descricao", .str d)]) :: rest))
        = some (.str (if c = "" then "" else c ++ " - " ++ d))) := by
  constructor
  · intro c d rest
    rw [extrairItemTeste,
      lookup_stepEmpregador_ne _ (by decide),
      lookup_stepCPF_ne _ (by decide),
      lookup_stepNome_ne _ (by decide),
      lookup_stepCNAE_ne _ (by decide)]
    have hfound : List.lookup "cbo"
        (("cbo", PyVal.dict [("codigo", PyVal.str c), ("descricao", PyVal.str d)]) :: rest)
        = some (PyVal.dict [("codigo", .str c), ("descricao", .str d)]) := rfl
    rw [stepCBO, hfound]
    rw [lookup_assocSet_self, displayCodigoDescricao_strings]
  · intro c d rest
    rw [extrairItemTeste,
      lookup_stepEmpregador_ne _ (by decide),
      lookup_stepCPF_ne _ (by decide),
      lookup_stepNome_ne _ (by decide)]
    have hfound : List.lookup "cnae"
        (("cnae", PyVal.dict [("codigo", PyVal.str c), ("descricao", PyVal.str d)]) :: rest)
        = some (PyVal.dict [("codigo", .str c), ("descricao", .str d)]) := rfl
    rw [stepCNAE, hfound]
    rw [lookup_assocSet_self, displayCodigoDescricao_strings]

/-! ### Claim C7 — what gets copied into output rows -/
theorem lookup_MP_copyFold :
    ∀ (row : List (String × PyVal)) (acc : Row),
      List.lookup "Margens Prev" acc = Option.none →
      List.lookup "Margens Prev" (row.foldl copyFunProc acc) = Option.none
  | [], _, h => h
  | kv :: row, acc, h => by
      rw [List.foldl_cons]
      refine lookup_MP_copyFold row _ ?_
      unfold copyFunProc
      by_cases h1 : kv.1 = "Margens Prev"
      · rw [if_pos h1]
        exact h
      · rw [if_neg h1]
        by_cases h2 : pdNotna kv.2
        · rw [if_pos h2, lookup_assocSet_ne _ _ _ _ (fun e => h1 e.symm)]
          exact h
        · rw [if_neg h2]
          exact h

theorem lookup_copyColsProc_MP (row : Row) :
    List.lookup "Margens Prev" (copyColsProc row) = Option.none :=
  lookup_MP_copyFold row [] rfl

theorem lookup_stepMapCBO_ne (k : String) (item : List (String × PyVal))
    (acc : Row) (h1 : k ≠ "MargensPrev_CBO_Codigo")
    (h2 : k ≠ "MargensPrev_CBO_Descricao") :
    List.lookup k (stepMapCBO item acc) = List.lookup k acc := by
  unfold stepMapCBO
  split
  · split
    · rw [lookup_assocSet_ne _ _ _ _ h2, lookup_assocSet_ne _ _ _ _ h1]
    · rfl
  · rfl

theorem lookup_stepMapCNAE_ne (k : String) (item : List (String × PyVal))
    (acc : Row) (h1 : k ≠ "MargensPrev_CNAE_Codigo")
    (h2 : k ≠ "MargensPrev_CNAE_Descricao") :
    List.lookup k (stepMapCNAE item acc) = List.lookup k acc := by
  unfold stepMapCNAE
  split
  · split
    · rw [lookup_assocSet_ne _ _ _ _ h2, lookup_assocSet_ne _ _ _ _ h1]
    · rfl
  · rfl

theorem lookup_fixedFold_ne (K : String) (item : List (String × PyVal)) :
    ∀ (ks : List String) (acc : Row),
      (∀ kk ∈ ks, K ≠ "MargensPrev_" ++ kk) →
      List.lookup K (ks.foldl (fixedFun item) acc) = List.lookup K acc
  | [], _, _ => rfl
  | kk :: ks, acc, h => by
      rw [List.foldl_cons,
        lookup_fixedFold_ne K item ks _
          (fun x hx => h x (List.mem_cons_of_mem kk hx))]
      unfold fixedFun
      split
      · rw [lookup_assocSet_ne _ _ _ _ (h kk (List.mem_cons_self kk ks))]
      · rfl

theorem lookup_teste_copyFold_MP :
    ∀ (row : List (String × PyVal)) (acc : Row),
      List.lookup "Margens Prev" acc = Option.none →
      List.lookup "Margens Prev" (row.foldl copyFunTeste acc) = Option.none
  | [], _, h => h
  | kv :: row, acc, h => by
      rw [List.foldl_cons]
      refine lookup_teste_copyFold_MP row _ ?_
      unfold copyFunTeste
      split
      · rename_i hcond
        rw [lookup_assocSet_ne _ _ _ _ (fun e => hcond.1 e.symm)]
        exact h
      · exact h

theorem lookup_teste_copyFold_shape :
    ∀ (row : List (String × PyVal)) (acc : Row),
      (∀ (k : String) (v : PyVal),
        List.lookup k acc = some v → isJsonShaped v = false) →
      ∀ (k : String) (v : PyVal),
        List.lookup k (row.foldl copyFunTeste acc) = some v →
        isJsonShaped v = false
  | [], _, h => h
  | kv :: row, acc, h => by
      rw [List.foldl_cons]
      refine lookup_teste_copyFold_shape row _ ?_
      intro k v hk
      unfold copyFunTeste at hk
      split at hk
      · rename_i hcond
        rw [lookup_assocSet] at hk
        by_cases hkk : k = kv.1
        · rw [if_pos hkk] at hk
          cases hk
          exact hcond.2.2
        · rw [if_neg hkk] at hk
          exact h k v hk
      · exact h k v hk

/-- Claim C7 counterexample: a merged output row of
`processar_propostas.py` carries both the raw eligibility-reason cell
and another column's payload-shaped JSON text verbatim — `mapear_linha`
skips only the exact payload column name. -/
theorem C7_counterexample :
    isJsonShaped (PyVal.str "\x7b\"a\":1\x7d") = true
    ∧ List.lookup "X"
        ((processRowProc
          [("Margens Prev", PyVal.str "[\x7b\"nome\":\"A\"\x7d]"),
           ("Motivo Inelegibilidade",
             PyVal.str "\x7b\"codigo\":1,\"descricao\":\"d\"\x7d"),
           ("X", PyVal.str "\x7b\"a\":1\x7d")]).headD [])
        = some (PyVal.str "\x7b\"a\":1\x7d")
    ∧ List.lookup "Motivo Inelegibilidade"
        ((processRowProc
          [("Margens Prev", PyVal.str "[\x7b\"nome\":\"A\"\x7d]"),
           ("Motivo Inelegibilidade",
             PyVal.str "\x7b\"codigo\":1,\"descricao\":\"d\"\x7d"),
           ("X", PyVal.str "\x7b\"a\":1\x7d")]).headD [])
        = some (PyVal.str "\x7b\"codigo\":1,\"descricao\":\"d\"\x7d") :=
  ⟨rfl, rfl, rfl⟩

/-- Claim C7 (amended): the exact payload column `Margens Prev` itself is
never present in a merged `mapear_linha` row; teste.py's merge step also
drops it and never copies a payload-shaped string value.  (The
counterexample shows the rest of the original claim fails: other columns
of `mapear_linha` rows — the raw eligibility cell included — are copied
verbatim.) -/
theorem C7_payload_column_never_copied :
    (∀ (row : Row) (item : List (String × PyVal)),
        List.lookup "Margens Prev" (mapear_linha row item) = Option.none)
    ∧ (∀ row : Row,
        List.lookup "Margens Prev" (copyScalarsTeste row) = Option.none)
    ∧ (∀ (row : Row) (k : String) (v : PyVal),
        List.lookup k (copyScalarsTeste row) = some v →
        isJsonShaped v = false) := by
  refine ⟨?_, ?_, ?_⟩
  · intro row item
    unfold mapear_linha
    rw [lookup_fixedFold_ne _ item fixedKeysProc _ (by decide),
      lookup_stepMapCNAE_ne _ item _ (by decide) (by decide),
      lookup_stepMapCBO_ne _ item _ (by decide) (by decide),
      lookup_copyColsProc_MP]
  · intro row
    exact lookup_teste_copyFold_MP row [] rfl
  · intro row k v h
    refine lookup_teste_copyFold_shape row [] ?_ k v h
    intro _ _ hk
    simp [List.lookup] at hk

/-- Claim C7 witness: the amended invariants at a concrete row. -/
theorem C7_witness :
    List.lookup "Margens Prev" (mapear_linha [("A", PyVal.int 1)] [])
        = Option.none
    ∧ List.lookup "Margens Prev" (copyScalarsTeste [("A", PyVal.int 1)])
        = Option.none
    ∧ List.lookup "A" (copyScalarsTeste [("A", PyVal.int 1)])
        = some (PyVal.int 1)
    ∧ isJsonShaped (PyVal.int 1) = false :=
  ⟨C7_payload_column_never_copied.1 [("A", PyVal.int 1)] [],
    C7_payload_column_never_copied.2.1 [("A", PyVal.int 1)], rfl,
    C7_payload_column_never_copied.2.2 [("A", PyVal.int 1)] "A" (PyVal.int 1) rfl⟩

/-! ### Claim C8 — deduplication semantics -/
theorem dedupGo_cons (seen : List (Option PyVal)) (r : Row) (rows : List Row) :
    dedupGo seen (r :: rows)
      = if seen.any (pdKeyEq (nomeKey r)) then dedupGo seen rows
        else r :: dedupGo (nomeKey r :: seen) rows := rfl

theorem dedupGo_eq_keepFirst :
    ∀ (rows : List Row) (seen : List (Option PyVal)),
      dedupGo seen rows
        = keepFirstByNomeSpec
            (rows.filter fun r => !seen.any (pdKeyEq (nomeKey r)))
  | [], seen => by
      simp [dedupGo, keepFirstByNomeSpec]
  | r :: rows, seen => by
      rw [List.filter_cons, dedupGo_cons]
      by_cases hseen : seen.any (pdKeyEq (nomeKey r)) = true
      · rw [if_pos hseen, hseen]
        rw [if_neg (by decide)]
        exact dedupGo_eq_keepFirst rows seen
      · have hseen' : seen.any (pdKeyEq (nomeKey r)) = false :=
          eq_false_of_ne_true hseen
        rw [if_neg hseen, hseen']
        rw [if_pos (by decide)]
        simp only [keepFirstByNomeSpec]
        congr 1
        rw [dedupGo_eq_keepFirst rows (nomeKey r :: seen)]
        congr 1
        rw [List.filter_filter]
        apply List.filter_congr
        intro x _
        simp only [List.any_cons, Bool.not_or]

/-- Claim C8 counterexample: with `drop_duplicates(subset=['Nome'])`,
pandas treats missing `Nome` cells as equal, so of two rows that both
lack the name key only the first survives — refuting "rows lacking the
key are never deduplicated against each other". -/
theorem C8_counterexample :
    drop_duplicates_nome
        [[("Nome", PyVal.str "A")], [("CPF", PyVal.str "1")],
         [("CPF", PyVal.str "2")]]
      = [[("Nome", PyVal.str "A")], [("CPF", PyVal.str "1")]] := rfl

/-- Claim C8 (amended): in teste.py, when the `Nome` column exists the
assembly deduplicates with keep-first semantics where all rows lacking a
`Nome` value form one shared key class (pandas NaN-equality) —
equivalently, assembly equals the spec-level "keep the first occurrence,
drop later rows with an equal key" recursion; and processar_propostas
applies no deduplication at all: its assembled rows are the extracted
rows verbatim. -/
theorem C8_dedup_keep_first (rows : List Row) (t : Table) (r : Row)
    (rs : List Row)
    (h : (unionKeys rows).contains "Nome" = true)
    (ht : t.rows.flatMap processRowProc = r :: rs) :
    drop_duplicates_nome rows = keepFirstByNomeSpec rows
    ∧ (processar_arquivo t).rows = r :: rs := by
  constructor
  · rw [drop_duplicates_nome, if_pos h, dedupGo_eq_keepFirst rows []]
    congr 1
    simp
  · simp only [processar_arquivo, ht]

/-- Claim C8 witness: the keep-first equivalence at a concrete row list,
and a concrete two-row table whose rows share the same `Nome` yet both
survive the processar pipeline (no dedup there). -/
theorem C8_witness :
    (unionKeys [[("Nome", PyVal.str "A")], [("CPF", PyVal.str "1")],
        [("CPF", PyVal.str "2")]]).contains "Nome" = true
    ∧ (Table.mk ["Nome"]
        [[("Nome", PyVal.str "A")], [("Nome", PyVal.str "A")]]).rows.flatMap
          processRowProc
        = [("Nome", PyVal.str "A")] :: [[("Nome", PyVal.str "A")]]
    ∧ drop_duplicates_nome
        [[("Nome", PyVal.str "A")], [("CPF", PyVal.str "1")],
         [("CPF", PyVal.str "2")]]
      = keepFirstByNomeSpec
        [[("Nome", PyVal.str "A")], [("CPF", PyVal.str "1")],
         [("CPF", PyVal.str "2")]]
    ∧ (processar_arquivo (Table.mk ["Nome"]
        [[("Nome", PyVal.str "A")], [("Nome", PyVal.str "A")]])).rows
      = [("Nome", PyVal.str "A")] :: [[("Nome", PyVal.str "A")]] := by
  have h := C8_dedup_keep_first
    [[("Nome", PyVal.str "A")], [("CPF", PyVal.str "1")],
     [("CPF", PyVal.str "2")]]
    (Table.mk ["Nome"] [[("Nome", PyVal.str "A")], [("Nome", PyVal.str "A")]])
    [("Nome", PyVal.str "A")] [[("Nome", PyVal.str "A")]]
    (by decide) rfl
  exact ⟨by decide, rfl, h.1, h.2⟩

/-! ### Claim C1 — zero-record rows -/
/-- Claim C1 counterexample: a source row whose only cell is an
unparseable brace-shaped payload yields zero entity records and zero
output rows — the row is silently dropped, not emitted once; in a
two-row table whose other row extracts fine, the assembled output has
one row, not two. -/
theorem C1_counterexample :
    extrair_registros_de_margens
        (margemValOfRow [("Margens Prev", PyVal.str "\x7bbad")]) = []
    ∧ processRowProc [("Margens Prev", PyVal.str "\x7bbad")] = []
    ∧ (processar_arquivo (Table.mk ["Margens Prev"]
        [[("Margens Prev", PyVal.str "[\x7b\"nome\":\"A\"\x7d]")],
         [("Margens Prev", PyVal.str "\x7bbad")]])).rows.length = 1 :=
  ⟨rfl, rfl, rfl⟩

/-- Claim C1 (amended): when the extractor yields zero records for a
source row, processar_propostas emits exactly one output row — the
present, non-payload-shaped scalar columns plus the eligibility fields
when present — provided that fallback row is non-empty; a zero-record
row whose fallback is empty is dropped, and the teste.py pipeline emits
no output rows at all for zero-record payload rows. -/
theorem C1_zero_record_rows (row row₂ : Row) (s : String)
    (h1 : extrair_registros_de_margens (margemValOfRow row) = [])
    (h2 : (addMotivo (motivoOfRow row) (fallbackRow row)).isEmpty = false)
    (h3 : List.lookup "Margens Prev" row₂ = some (.str s))
    (h4 : extrair_cbo_cnae_de_json (String.mk (pyStrip s.data)) = []) :
    processRowProc row = [addMotivo (motivoOfRow row) (fallbackRow row)]
    ∧ processRowTeste row₂ = [] := by
  constructor
  · unfold processRowProc
    rw [h1]
    dsimp only
    rw [h2, if_neg (by decide)]
  · unfold processRowTeste
    rw [h3]
    dsimp only [pdNotna]
    rw [if_pos rfl]
    split
    · rw [h4]
      rfl
    · rfl

/-- Claim C1 witness: the amended statement at concrete rows — a
zero-record payload (`[1,2]`, a valid array with no entity objects) with
one surviving scalar column in processar_propostas, and the same payload
dropped entirely by teste.py. -/
theorem C1_witness :
    extrair_registros_de_margens (margemValOfRow
        [("A", PyVal.int 5), ("Margens Prev", PyVal.str "[1,2]")]) = []
    ∧ processRowProc [("A", PyVal.int 5), ("Margens Prev", PyVal.str "[1,2]")]
        = [addMotivo
            (motivoOfRow [("A", PyVal.int 5), ("Margens Prev", PyVal.str "[1,2]")])
            (fallbackRow [("A", PyVal.int 5), ("Margens Prev", PyVal.str "[1,2]")])]
    ∧ processRowTeste [("Margens Prev", PyVal.str "[1,2]")] = []
    ∧ addMotivo
        (motivoOfRow [("A", PyVal.int 5), ("Margens Prev", PyVal.str "[1,2]")])
        (fallbackRow [("A", PyVal.int 5), ("Margens Prev", PyVal.str "[1,2]")])
      = [("A", PyVal.int 5)] := by
  have h := C1_zero_record_rows
    [("A", PyVal.int 5), ("Margens Prev", PyVal.str "[1,2]")]
    [("Margens Prev", PyVal.str "[1,2]")] "[1,2]" rfl rfl rfl rfl
  exact ⟨rfl, h.1, h.2, rfl⟩
